import Mathlib

/-!
Verification of the FASTQ quality-metric scripts of the Oncomine RNA-seq
pipeline, as a shallow embedding in Lean.

A gzipped FASTQ file is modelled after it has been read and split into
records: each record carries its sequence line and its quality line as
lists of characters (`FastqRecord`).  The scripts never use the header or
separator lines except in the format validator, which is modelled directly
on the raw line list.  Exact rational arithmetic (`ℚ`) stands in for
Python floats, and `ℝ` with `Real.logb` for the Shannon-entropy float.

Embedded functions (named after the Python functions they translate):
* `calculate_sequence_complexity` - `09_library_complexity_metrics.py`
* `estimate_library_size` - `09_library_complexity_metrics.py`
* `kmer_contamination_detection` - `rnaseq/07_contamination_screening.py`
* `infer_strandedness_from_fastq` - `rnaseq/08_strand_specificity_detection.py`
* `validate_fastq_format` - `rnaseq/06_fastqc_quality_control.py`
-/

namespace Oncomine

/-- Character-wise upper-casing, modelling Python `str.upper` on the
ASCII sequences the scripts process. -/
def upperList (s : List Char) : List Char := s.map Char.toUpper

/-- One FASTQ record as consumed by the metric scripts: the sequence line
(line ≡ 2 mod 4) and the quality line (line ≡ 0 mod 4), already stripped. -/
structure FastqRecord where
  sequence : List Char
  quality : List Char
deriving DecidableEq

/-- The stream of upper-cased sequences, as accumulated by the
`line_num % 4 == 2` branch: `sequence = line.strip().upper()`. -/
def useqs (recs : List FastqRecord) : List (List Char) :=
  recs.map (fun r => upperList r.sequence)

/-- `sequence.count('G') + sequence.count('C')`. -/
def gcCount (s : List Char) : ℕ := s.count 'G' + s.count 'C'

/-- `sequence.count('A') + sequence.count('T')`. -/
def atCount (s : List Char) : ℕ := s.count 'A' + s.count 'T'

/-- `ord(q) - 33`, the Phred decoding of one quality character. -/
def phred (c : Char) : ℤ := (c.toNat : ℤ) - 33

/-- `total_reads = sum(sequence_counts.values())`: the multiplicities of the
tally sum to the number of sequence lines read. -/
def total_reads_of (recs : List FastqRecord) : ℕ := (useqs recs).length

/-- `unique_sequences = len(sequence_counts)`: the number of distinct keys of
the tally. -/
def unique_sequences_of (recs : List FastqRecord) : ℕ := (useqs recs).dedup.length

/-- `duplicate_reads = total_reads - unique_sequences`. -/
def duplicate_reads_of (recs : List FastqRecord) : ℕ :=
  total_reads_of recs - unique_sequences_of recs

/-- `duplication_rate = (duplicate_reads / total_reads) * 100` guarded by
`if total_reads > 0`, else the 0.0 default. -/
def duplication_rate_of (recs : List FastqRecord) : ℚ :=
  if 0 < total_reads_of recs then
    ((duplicate_reads_of recs : ℚ) / (total_reads_of recs : ℚ)) * 100
  else 0

/-- `complexity_score = (unique_sequences / total_reads) * 100` guarded by
`if total_reads > 0`, else the 0.0 default. -/
def complexity_score_of (recs : List FastqRecord) : ℚ :=
  if 0 < total_reads_of recs then
    ((unique_sequences_of recs : ℚ) / (total_reads_of recs : ℚ)) * 100
  else 0

/-- `total_bases`, accumulated as `total_bases += len(sequence)`. -/
def total_bases_of (recs : List FastqRecord) : ℕ :=
  ((useqs recs).map List.length).sum

/-- `gc_count`, accumulated as `gc_count += sequence.count('G') + sequence.count('C')`. -/
def gc_count_of (recs : List FastqRecord) : ℕ :=
  ((useqs recs).map gcCount).sum

/-- `gc_content = (gc_count / total_bases) * 100` guarded by `if total_bases > 0`. -/
def gc_content_of (recs : List FastqRecord) : ℚ :=
  if 0 < total_bases_of recs then
    ((gc_count_of recs : ℚ) / (total_bases_of recs : ℚ)) * 100
  else 0

/-- `quality_scores`, extended with `ord(q) - 33` for every character of every
quality line. -/
def quality_scores_of (recs : List FastqRecord) : List ℤ :=
  recs.flatMap (fun r => r.quality.map phred)

/-- `quality_assessment`: mean quality ≥ 30 is high, ≥ 20 medium, else low;
the `'unknown'` default survives only when no quality score was observed
(`if quality_scores:` is false). -/
def quality_assessment_of (recs : List FastqRecord) : String :=
  if quality_scores_of recs = [] then "unknown"
  else if (30 : ℚ) ≤ ((quality_scores_of recs).sum : ℚ) / ((quality_scores_of recs).length : ℚ)
    then "high"
  else if (20 : ℚ) ≤ ((quality_scores_of recs).sum : ℚ) / ((quality_scores_of recs).length : ℚ)
    then "medium"
  else "low"

/-- The numeric and categorical fields of the `result_dict` built by
`calculate_sequence_complexity` (the constant `file` field is omitted; the
real-valued `entropy` field is modelled separately as `shannon_entropy`,
since it is the only irrational-valued metric). -/
structure ComplexityRecord where
  total_reads : ℕ
  unique_sequences : ℕ
  duplicate_reads : ℕ
  duplication_rate : ℚ
  complexity_score : ℚ
  gc_content : ℚ
  quality_assessment : String
deriving DecidableEq

/-- The `result_dict` initialiser of `calculate_sequence_complexity`: all
metrics zero and `quality_assessment = 'unknown'`. -/
def initComplexityRecord : ComplexityRecord :=
  ⟨0, 0, 0, 0, 0, 0, "unknown"⟩

/-- `calculate_sequence_complexity` of `09_library_complexity_metrics.py`
on a successfully read record list. -/
def calculate_sequence_complexity (recs : List FastqRecord) : ComplexityRecord :=
  ⟨total_reads_of recs, unique_sequences_of recs, duplicate_reads_of recs,
   duplication_rate_of recs, complexity_score_of recs, gc_content_of recs,
   quality_assessment_of recs⟩

/-- `calculate_sequence_complexity` including its `try/except` boundary: the
input is the outcome of reading the gzipped file.  Every assignment into
`result_dict` happens after the read loop and is total, so an exception can
only arise while reading; the handler logs and returns the dict, which at
that point still holds every default. -/
def calculate_sequence_complexity_checked
    (input : Except String (List FastqRecord)) : ComplexityRecord :=
  match input with
  | Except.error _ => initComplexityRecord
  | Except.ok recs => calculate_sequence_complexity recs

/-- The Shannon-entropy accumulation of `calculate_sequence_complexity`:
`entropy -= p * log2(p)` for each tally value, guarded by `if p > 0`,
and computed only `if total_reads > 0` (else the 0.0 default). -/
noncomputable def shannon_entropy (l : List (List Char)) : ℝ :=
  if 0 < l.length then
    -((l.dedup.map (fun s =>
        if 0 < (l.count s : ℝ) / (l.length : ℝ) then
          ((l.count s : ℝ) / (l.length : ℝ))
            * Real.logb 2 ((l.count s : ℝ) / (l.length : ℝ))
        else 0)).sum)
  else 0

/-- The spec's wording of the entropy: `−Σ p·log2(p)` over all distinct
sequences with `p = count/total_reads`, written as a `Finset` sum.  Stated
from the spec to be compared with `shannon_entropy`, which is translated
from the code. -/
noncomputable def entropy_spec (l : List (List Char)) : ℝ :=
  -(∑ s ∈ l.toFinset,
      ((l.count s : ℝ) / (l.length : ℝ))
        * Real.logb 2 ((l.count s : ℝ) / (l.length : ℝ)))

/-- `observed_species = len(sequence_counts)`. -/
def observed_species_of (recs : List FastqRecord) : ℕ :=
  (useqs recs).dedup.length

/-- `singleton_species = frequency_counts.get(1, 0)`: the number of distinct
sequences whose tally count is exactly 1. -/
def singleton_species_of (recs : List FastqRecord) : ℕ :=
  ((useqs recs).dedup.filter (fun s => decide ((useqs recs).count s = 1))).length

/-- `doubleton_species = frequency_counts.get(2, 0)`: the number of distinct
sequences whose tally count is exactly 2. -/
def doubleton_species_of (recs : List FastqRecord) : ℕ :=
  ((useqs recs).dedup.filter (fun s => decide ((useqs recs).count s = 2))).length

/-- The Chao1 estimator of `estimate_library_size`:
`observed + singletons**2 / (2*doubletons)` when `doubletons > 0`, else
`observed + singletons*(singletons-1) / 2`. -/
def chao1_estimate_of (recs : List FastqRecord) : ℚ :=
  if 0 < doubleton_species_of recs then
    (observed_species_of recs : ℚ)
      + (singleton_species_of recs : ℚ) ^ 2 / (2 * (doubleton_species_of recs : ℚ))
  else
    (observed_species_of recs : ℚ)
      + (singleton_species_of recs : ℚ) * ((singleton_species_of recs : ℚ) - 1) / 2

/-- Good's coverage: `(1 - singletons/total_reads) * 100` guarded by
`if total_reads > 0`. -/
def coverage_estimate_of (recs : List FastqRecord) : ℚ :=
  if 0 < total_reads_of recs then
    (1 - (singleton_species_of recs : ℚ) / (total_reads_of recs : ℚ)) * 100
  else 0

/-- The result record of `estimate_library_size` (constant `file` field
omitted). -/
structure LibrarySizeRecord where
  observed_species : ℕ
  singleton_species : ℕ
  doubleton_species : ℕ
  chao1_estimate : ℚ
  coverage_estimate : ℚ
deriving DecidableEq

/-- `estimate_library_size` of `09_library_complexity_metrics.py` on a
successfully read record list (it re-reads the same file and re-builds the
same upper-cased sequence tally as `calculate_sequence_complexity`). -/
def estimate_library_size (recs : List FastqRecord) : LibrarySizeRecord :=
  ⟨observed_species_of recs, singleton_species_of recs, doubleton_species_of recs,
   chao1_estimate_of recs, coverage_estimate_of recs⟩

/-- One k-mer window per iteration of
`for i in range(len(sequence) - kmer_size + 1)` in
`kmer_contamination_detection`.  A non-positive Python range is empty; with
truncated `ℕ` subtraction, `s.length + 1 - k` is `0` exactly when
`s.length < k`, matching it.  Note the 07 script reads
`sequence = line.strip()` with no `.upper()`, so k-mers keep the original
case of the read. -/
def kmersOf (k : ℕ) (s : List Char) : List (List Char) :=
  (List.range (s.length + 1 - k)).map (fun i => (s.drop i).take k)

/-- All k-mers accumulated into `kmer_counts` over the sequence lines of the
file, in encounter order. -/
def allKmers (k : ℕ) (rs : List (List Char)) : List (List Char) :=
  rs.flatMap (kmersOf k)

/-- `total_kmers`, incremented once per extracted k-mer. -/
def total_kmers_of (k : ℕ) (rs : List (List Char)) : ℕ :=
  (allKmers k rs).length

/-- `unique_kmers = len(kmer_counts)`. -/
def unique_kmers_of (k : ℕ) (rs : List (List Char)) : ℕ :=
  (allKmers k rs).dedup.length

/-- `duplicate_kmers = sum(1 for count in kmer_counts.values() if count > 1)`. -/
def duplicate_kmers_of (k : ℕ) (rs : List (List Char)) : ℕ :=
  ((allKmers k rs).dedup.filter (fun m => decide (1 < (allKmers k rs).count m))).length

/-- `kmer_complexity = unique_kmers / total_kmers if total_kmers > 0 else 0.0`. -/
def kmer_complexity_of (k : ℕ) (rs : List (List Char)) : ℚ :=
  if 0 < total_kmers_of k rs then
    (unique_kmers_of k rs : ℚ) / (total_kmers_of k rs : ℚ)
  else 0

/-- The contamination classification rule: `potential_contamination` is set
exactly when `kmer_complexity < 0.7` (it defaults to `False`). -/
def contamination_flag (c : ℚ) : Bool := decide (c < 7/10)

/-- The result record of `kmer_contamination_detection` (constant `file`
field omitted). -/
structure KmerRecord where
  kmer_size : ℕ
  unique_kmers : ℕ
  duplicate_kmers : ℕ
  kmer_complexity : ℚ
  potential_contamination : Bool
deriving DecidableEq

/-- `kmer_contamination_detection` of `rnaseq/07_contamination_screening.py`
on the raw (not upper-cased) sequence lines of a successfully read file. -/
def kmer_contamination_detection (k : ℕ) (rs : List (List Char)) : KmerRecord :=
  ⟨k, unique_kmers_of k rs, duplicate_kmers_of k rs, kmer_complexity_of k rs,
   contamination_flag (kmer_complexity_of k rs)⟩

/-- `if total_reads >= 100000: break` - only the first 100000 reads are
sampled by `infer_strandedness_from_fastq`. -/
def sample_cap : ℕ := 100000

/-- The reads the strand-inference loop actually tallies: each sequence line
is `line.strip().upper()`, and the loop breaks after the 100000th read, so
exactly the first `min(n, 100000)` reads are consumed. -/
def sampledReads (rs : List (List Char)) : List (List Char) :=
  (rs.take sample_cap).map upperList

/-- `forward_gc`: GC bases of the reads whose 1-based encounter index is even
(`if total_reads % 2 == 0` runs after `total_reads += 1`).  `List.enum` is
0-based, so entry `p` has 1-based index `p.1 + 1`. -/
def forward_gc (rs : List (List Char)) : ℕ :=
  (((sampledReads rs).enum.filter (fun p => decide ((p.1 + 1) % 2 = 0))).map
    (fun p => gcCount p.2)).sum

/-- `reverse_gc`: GC bases of the odd-indexed (1-based) sampled reads. -/
def reverse_gc (rs : List (List Char)) : ℕ :=
  (((sampledReads rs).enum.filter (fun p => decide ((p.1 + 1) % 2 = 1))).map
    (fun p => gcCount p.2)).sum

/-- `forward_at`: AT bases of the even-indexed (1-based) sampled reads. -/
def forward_at (rs : List (List Char)) : ℕ :=
  (((sampledReads rs).enum.filter (fun p => decide ((p.1 + 1) % 2 = 0))).map
    (fun p => atCount p.2)).sum

/-- `reverse_at`: AT bases of the odd-indexed (1-based) sampled reads. -/
def reverse_at (rs : List (List Char)) : ℕ :=
  (((sampledReads rs).enum.filter (fun p => decide ((p.1 + 1) % 2 = 1))).map
    (fun p => atCount p.2)).sum

/-- `gc_skew = (forward_gc - reverse_gc) / (forward_gc + reverse_gc)`,
computed only under the guard `forward_gc + reverse_gc > 0`. -/
def gc_skew_val (rs : List (List Char)) : ℚ :=
  ((forward_gc rs : ℚ) - (reverse_gc rs : ℚ))
    / ((forward_gc rs : ℚ) + (reverse_gc rs : ℚ))

/-- `at_skew`, with its own `forward_at + reverse_at > 0` guard (the 0.0
default otherwise). -/
def at_skew_val (rs : List (List Char)) : ℚ :=
  if 0 < forward_at rs + reverse_at rs then
    ((forward_at rs : ℚ) - (reverse_at rs : ℚ))
      / ((forward_at rs : ℚ) + (reverse_at rs : ℚ))
  else 0

/-- The result record of `infer_strandedness_from_fastq` (constant `file`
and `method` fields omitted). -/
structure StrandRecord where
  strandedness : String
  gc_skew : ℚ
  at_skew : ℚ
  confidence : String
deriving DecidableEq

/-- `infer_strandedness_from_fastq` of
`rnaseq/08_strand_specificity_detection.py`.  When
`forward_gc + reverse_gc == 0` the guarded assignment of the local variable
`gc_skew` is skipped, so the later `skew_magnitude = abs(gc_skew)` raises
`UnboundLocalError`; the enclosing `except` catches it and the function
returns the dict as built so far: `gc_skew` still the 0.0 default,
`strandedness = 'unknown'`, `confidence = 'low'` - with `at_skew` already
updated whenever its own denominator was positive, since that assignment
precedes the failing line. -/
def infer_strandedness_from_fastq (rs : List (List Char)) : StrandRecord :=
  if 0 < forward_gc rs + reverse_gc rs then
    if 1/10 < |gc_skew_val rs| then
      ⟨"stranded", gc_skew_val rs, at_skew_val rs,
        if 1/5 < |gc_skew_val rs| then "high" else "medium"⟩
    else
      ⟨"unstranded", gc_skew_val rs, at_skew_val rs,
        if |gc_skew_val rs| < 1/20 then "high" else "medium"⟩
  else
    ⟨"unknown", 0, at_skew_val rs, "low"⟩

/-- Python `line.startswith(c)` for a single-character prefix, on a line
modelled as a character list. -/
def startsWithChar (c : Char) : List Char → Bool
  | [] => false
  | d :: _ => d == c

/-- The error message appended for a bad header line. -/
def header_error_msg (n : ℕ) : String :=
  "Line " ++ toString n ++ ": Invalid header (should start with @)"

/-- The error message appended for a bad separator line. -/
def separator_error_msg (n : ℕ) : String :=
  "Line " ++ toString n ++ ": Invalid separator (should start with +)"

/-- The `errors` list built by `validate_fastq_format`: line positions
≡ 1 (mod 4) must start with `@`, positions ≡ 3 (mod 4) must start with `+`;
nothing else is checked (in particular no sequence/quality length
comparison). -/
def fastqFormatErrors (lines : List (List Char)) : List String :=
  lines.enum.filterMap (fun p =>
    if (p.1 + 1) % 4 = 1 then
      if startsWithChar '@' p.2 then none else some (header_error_msg (p.1 + 1))
    else if (p.1 + 1) % 4 = 3 then
      if startsWithChar '+' p.2 then none else some (separator_error_msg (p.1 + 1))
    else none)

/-- `read_count`, incremented on every line position ≡ 0 (mod 4). -/
def read_count_of (lines : List (List Char)) : ℕ :=
  (lines.enum.filter (fun p => decide ((p.1 + 1) % 4 = 0))).length

/-- The `validation` dict of `validate_fastq_format` (constant `file` field
omitted): `valid` starts `True` and is cleared exactly when an error is
appended, so it holds iff `errors` is empty. -/
structure FastqValidation where
  valid : Bool
  total_reads : ℕ
  errors : List String
deriving DecidableEq

/-- `validate_fastq_format` of `rnaseq/06_fastqc_quality_control.py` on a
successfully gzip-read and line-split file. -/
def validate_fastq_format (lines : List (List Char)) : FastqValidation :=
  ⟨(fastqFormatErrors lines).isEmpty, read_count_of lines, fastqFormatErrors lines⟩

/-- A 1-read input whose sequence `AT` contains no G or C base. -/
def at_only_reads : List (List Char) := [['A','T']]

/-- A 2-read input with maximal GC skew: read 1 (`GG`) lands in the reverse
tally, read 2 (`AA`) in the forward tally. -/
def skew_reads : List (List Char) := [['G','G'], ['A','A']]

/-- A 31-character lower-case read (exactly one 31-mer). -/
def low31 : List Char := List.replicate 31 'a'

/-- The same 31-character read upper-cased. -/
def up31 : List Char := List.replicate 31 'A'

/-- A 20-character read, shorter than the default k-mer length 31. -/
def short20 : List Char := List.replicate 20 'A'

/-- A 3-character read whose two 2-mers `AC` and `CG` are distinct. -/
def distinct_kmer_reads : List (List Char) := [['A','C','G']]

/-- A single FASTQ record block whose quality line (2 characters) is shorter
than its sequence line (4 characters). -/
def mismatched_lines : List (List Char) :=
  [['@','r','1'], ['A','C','G','T'], ['+'], ['I','I']]

/-- The 4-read example file of the spec scenario: sequences
`ACGT, ACGT, TTTT, GGCC`, uniform high quality (`I` = Phred 40). -/
def demo_reads : List FastqRecord :=
  [⟨['A','C','G','T'], ['I','I','I','I']⟩,
   ⟨['A','C','G','T'], ['I','I','I','I']⟩,
   ⟨['T','T','T','T'], ['I','I','I','I']⟩,
   ⟨['G','G','C','C'], ['I','I','I','I']⟩]

/-- A 2-read input used to instantiate universally quantified theorems. -/
def tiny_reads : List FastqRecord :=
  [⟨['A','C'], ['I','I']⟩]

theorem unique_le_total (recs : List FastqRecord) :
    unique_sequences_of recs ≤ total_reads_of recs :=
  (List.dedup_sublist (useqs recs)).length_le

/-- C1: with at least one read, `duplicate_reads = total_reads −
unique_sequences`, `duplication_rate = duplicate_reads/total_reads × 100`,
`complexity_score = unique_sequences/total_reads × 100`, and the two
percentages sum to 100; on the 4-read example `ACGT, ACGT, TTTT, GGCC` the
fields are 4, 3, 1, 25 and 75. -/
theorem c1_complexity_identities (recs : List FastqRecord)
    (h : 0 < (calculate_sequence_complexity recs).total_reads) :
    (calculate_sequence_complexity recs).duplicate_reads
        = (calculate_sequence_complexity recs).total_reads
          - (calculate_sequence_complexity recs).unique_sequences
    ∧ (calculate_sequence_complexity recs).duplication_rate
        = ((calculate_sequence_complexity recs).duplicate_reads : ℚ)
          / ((calculate_sequence_complexity recs).total_reads : ℚ) * 100
    ∧ (calculate_sequence_complexity recs).complexity_score
        = ((calculate_sequence_complexity recs).unique_sequences : ℚ)
          / ((calculate_sequence_complexity recs).total_reads : ℚ) * 100
    ∧ (calculate_sequence_complexity recs).complexity_score
        + (calculate_sequence_complexity recs).duplication_rate = 100
    ∧ (calculate_sequence_complexity demo_reads).total_reads = 4
    ∧ (calculate_sequence_complexity demo_reads).unique_sequences = 3
    ∧ (calculate_sequence_complexity demo_reads).duplicate_reads = 1
    ∧ (calculate_sequence_complexity demo_reads).duplication_rate = 25
    ∧ (calculate_sequence_complexity demo_reads).complexity_score = 75 := by
  have htr : 0 < total_reads_of recs := h
  have hle := unique_le_total recs
  have htrQ : (0 : ℚ) < (total_reads_of recs : ℚ) := by exact_mod_cast htr
  have hd1 : duplicate_reads_of demo_reads = 1 := by decide
  have hu3 : unique_sequences_of demo_reads = 3 := by decide
  have ht4 : total_reads_of demo_reads = 4 := by decide
  refine ⟨rfl, ?_, ?_, ?_, by decide, by decide, by decide, ?_, ?_⟩
  · show duplication_rate_of recs
      = (duplicate_reads_of recs : ℚ) / (total_reads_of recs : ℚ) * 100
    unfold duplication_rate_of
    rw [if_pos htr]
  · show complexity_score_of recs
      = (unique_sequences_of recs : ℚ) / (total_reads_of recs : ℚ) * 100
    unfold complexity_score_of
    rw [if_pos htr]
  · show complexity_score_of recs + duplication_rate_of recs = 100
    unfold complexity_score_of duplication_rate_of duplicate_reads_of
    rw [if_pos htr, if_pos htr, Nat.cast_sub hle]
    field_simp
    ring
  · show duplication_rate_of demo_reads = 25
    unfold duplication_rate_of
    rw [hd1, ht4]
    norm_num
  · show complexity_score_of demo_reads = 75
    unfold complexity_score_of
    rw [hu3, ht4]
    norm_num

theorem c1_complexity_identities_witness :
    (calculate_sequence_complexity demo_reads).complexity_score
      + (calculate_sequence_complexity demo_reads).duplication_rate = 100 :=
  (c1_complexity_identities demo_reads (by decide)).2.2.2.1

/-- C2: the Chao1 estimate is `observed + singletons²/(2·doubletons)` when
`doubletons > 0` and `observed + singletons·(singletons−1)/2` otherwise, and
with at least one read it is at least the number of distinct observed
sequences. -/
theorem c2_chao1_estimator (recs : List FastqRecord) :
    ((estimate_library_size recs).chao1_estimate
        = if 0 < (estimate_library_size recs).doubleton_species then
            ((estimate_library_size recs).observed_species : ℚ)
              + ((estimate_library_size recs).singleton_species : ℚ) ^ 2
                / (2 * ((estimate_library_size recs).doubleton_species : ℚ))
          else
            ((estimate_library_size recs).observed_species : ℚ)
              + ((estimate_library_size recs).singleton_species : ℚ)
                * (((estimate_library_size recs).singleton_species : ℚ) - 1) / 2)
    ∧ (1 ≤ recs.length →
        ((estimate_library_size recs).observed_species : ℚ)
          ≤ (estimate_library_size recs).chao1_estimate) := by
  constructor
  · rfl
  · intro _
    show (observed_species_of recs : ℚ) ≤ chao1_estimate_of recs
    unfold chao1_estimate_of
    split_ifs with hd
    · have hnn : (0 : ℚ)
          ≤ (singleton_species_of recs : ℚ) ^ 2
            / (2 * (doubleton_species_of recs : ℚ)) := by positivity
      linarith
    · rcases Nat.eq_zero_or_pos (singleton_species_of recs) with h0 | h1
      · simp [h0]
      · have h1Q : (1 : ℚ) ≤ (singleton_species_of recs : ℚ) := by exact_mod_cast h1
        have hnn : (0 : ℚ)
            ≤ (singleton_species_of recs : ℚ)
              * ((singleton_species_of recs : ℚ) - 1) / 2 := by nlinarith
        linarith

theorem c2_chao1_estimator_witness :
    ((estimate_library_size tiny_reads).observed_species : ℚ)
      ≤ (estimate_library_size tiny_reads).chao1_estimate :=
  (c2_chao1_estimator tiny_reads).2 (by decide)

theorem char_toUpper_idem (c : Char) : c.toUpper.toUpper = c.toUpper := by
  unfold Char.toUpper
  by_cases h : c.toNat ≥ 97 ∧ c.toNat ≤ 122
  · rw [if_pos h]
    have hv : (c.toNat - 32).isValidChar := Or.inl (by omega)
    have ht : (Char.ofNat (c.toNat - 32)).toNat = c.toNat - 32 := by
      unfold Char.ofNat
      rw [dif_pos hv]
      unfold Char.ofNatAux Char.toNat
      rfl
    rw [if_neg (by omega)]
  · rw [if_neg h, if_neg h]

theorem upperList_idem (s : List Char) : upperList (upperList s) = upperList s := by
  unfold upperList
  rw [List.map_map]
  have hcomp : Char.toUpper ∘ Char.toUpper = Char.toUpper := funext char_toUpper_idem
  rw [hcomp]

theorem useqs_upper_invariant (recs : List FastqRecord) :
    useqs (recs.map (fun r => ⟨upperList r.sequence, r.quality⟩)) = useqs recs := by
  unfold useqs
  rw [List.map_map]
  congr 1
  funext r
  exact upperList_idem r.sequence

theorem quality_scores_upper_invariant (recs : List FastqRecord) :
    quality_scores_of (recs.map (fun r => ⟨upperList r.sequence, r.quality⟩))
      = quality_scores_of recs := by
  unfold quality_scores_of
  induction recs with
  | nil => rfl
  | cons r rest ih => simp only [List.map_cons, List.flatMap_cons] at ih ⊢; rw [ih]

/-- C6: the k-mer complexity ratio always lies in `[0,1]`; it is 1 when at
least one k-mer was extracted and all extracted k-mers are distinct, it is 0
when no k-mer was extracted, and a 20-character sequence yields no 31-mers
and still produces a complete result record. -/
theorem c6_kmer_complexity_bounds (k : ℕ) (rs : List (List Char)) :
    0 ≤ (kmer_contamination_detection k rs).kmer_complexity
    ∧ (kmer_contamination_detection k rs).kmer_complexity ≤ 1
    ∧ (0 < total_kmers_of k rs → (allKmers k rs).Nodup →
        (kmer_contamination_detection k rs).kmer_complexity = 1)
    ∧ (total_kmers_of k rs = 0 →
        (kmer_contamination_detection k rs).kmer_complexity = 0)
    ∧ kmersOf 31 short20 = []
    ∧ kmer_contamination_detection 31 [short20] = ⟨31, 0, 0, 0, true⟩ := by
  have hzero : ∀ (k' : ℕ) (rs' : List (List Char)), total_kmers_of k' rs' = 0 →
      kmer_complexity_of k' rs' = 0 := by
    intro k' rs' h0
    unfold kmer_complexity_of
    rw [if_neg (by omega)]
  refine ⟨?_, ?_, ?_, hzero k rs, by decide, ?_⟩
  · show 0 ≤ kmer_complexity_of k rs
    unfold kmer_complexity_of
    split_ifs with h
    · positivity
    · exact le_refl 0
  · show kmer_complexity_of k rs ≤ 1
    unfold kmer_complexity_of
    split_ifs with h
    · rw [div_le_one (by exact_mod_cast h)]
      exact_mod_cast (List.dedup_sublist (allKmers k rs)).length_le
    · norm_num
  · intro ht hn
    show kmer_complexity_of k rs = 1
    unfold kmer_complexity_of
    rw [if_pos ht]
    have he : unique_kmers_of k rs = total_kmers_of k rs := by
      unfold unique_kmers_of total_kmers_of
      rw [List.dedup_eq_self.2 hn]
    rw [he]
    exact div_self (by exact_mod_cast ht.ne')
  · have h0 : total_kmers_of 31 [short20] = 0 := by decide
    have hc : kmer_complexity_of 31 [short20] = 0 := hzero 31 [short20] h0
    show kmer_contamination_detection 31 [short20] = ⟨31, 0, 0, 0, true⟩
    unfold kmer_contamination_detection
    rw [hc, show unique_kmers_of 31 [short20] = 0 from by decide,
        show duplicate_kmers_of 31 [short20] = 0 from by decide]
    have hf : contamination_flag 0 = true := by
      unfold contamination_flag
      rw [decide_eq_true_eq]
      norm_num
    rw [hf]

theorem c6_kmer_complexity_bounds_witness :
    (kmer_contamination_detection 2 distinct_kmer_reads).kmer_complexity = 1 :=
  (c6_kmer_complexity_bounds 2 distinct_kmer_reads).2.2.1 (by decide) (by decide)

/-- C9: `potential_contamination` holds exactly when the k-mer complexity is
below 0.7, and the threshold rule flags 0.65 but not 0.75. -/
theorem c9_contamination_threshold (k : ℕ) (rs : List (List Char)) :
    ((kmer_contamination_detection k rs).potential_contamination = true
      ↔ (kmer_contamination_detection k rs).kmer_complexity < 7/10)
    ∧ contamination_flag (13/20) = true
    ∧ contamination_flag (3/4) = false := by
  refine ⟨?_, ?_, ?_⟩
  · show contamination_flag (kmer_complexity_of k rs) = true
      ↔ kmer_complexity_of k rs < 7/10
    unfold contamination_flag
    exact decide_eq_true_iff
  · unfold contamination_flag
    rw [decide_eq_true_eq]
    norm_num
  · unfold contamination_flag
    rw [decide_eq_false_iff_not]
    norm_num

/-- C4 counterexample: the k-mer counter of the contamination screen does
not upper-case (`sequence = line.strip()`), so the lower-case read `a × 31`
feeds the k-mer tally entry `a × 31`, not the entry `A × 31` that the same
read given upper-cased feeds - refuting the claim that both counters are
incremented on the upper-cased sequence. -/
theorem c4_counterexample :
    upperList low31 = up31
    ∧ (allKmers 31 [low31]).count up31 = 0
    ∧ (allKmers 31 [up31]).count up31 = 1
    ∧ allKmers 31 [low31] ≠ allKmers 31 [up31] := by decide

/-- C4 amended: the per-sequence tally of the complexity script upper-cases
each read, so case-variant reads land in the same sequence-count entries
(upper-casing the input changes neither the tallied sequence stream nor the
resulting complexity record); but the k-mer counters of the contamination
screen consume the raw line, so the same read in lower and upper case feeds
different k-mer-count entries. -/
theorem c4_tally_case_sensitivity :
    (∀ recs : List FastqRecord,
       useqs (recs.map (fun r => ⟨upperList r.sequence, r.quality⟩)) = useqs recs)
    ∧ (∀ recs : List FastqRecord,
       calculate_sequence_complexity (recs.map (fun r => ⟨upperList r.sequence, r.quality⟩))
         = calculate_sequence_complexity recs)
    ∧ (allKmers 31 [low31]).count up31 ≠ (allKmers 31 [up31]).count up31 := by
  refine ⟨useqs_upper_invariant, ?_, by decide⟩
  intro recs
  have hu := useqs_upper_invariant recs
  have hq := quality_scores_upper_invariant recs
  unfold calculate_sequence_complexity
  simp only [total_reads_of, unique_sequences_of, duplicate_reads_of,
    duplication_rate_of, complexity_score_of, total_bases_of, gc_count_of,
    gc_content_of, quality_assessment_of]
  rw [hu, hq]

/-- C3 counterexample: on a read with no G or C base the returned `gc_skew`
is the 0.0 default, but the skew classification is not applied to it - the
`UnboundLocalError` raised at `abs(gc_skew)` is swallowed and the label
stays `unknown` instead of the `unstranded` the classification of a zero
skew would produce. -/
theorem c3_counterexample :
    (infer_strandedness_from_fastq at_only_reads).gc_skew = 0
    ∧ (infer_strandedness_from_fastq at_only_reads).strandedness = "unknown"
    ∧ (infer_strandedness_from_fastq at_only_reads).strandedness ≠ "unstranded" := by
  have h0 : forward_gc at_only_reads + reverse_gc at_only_reads = 0 := by decide
  unfold infer_strandedness_from_fastq
  rw [if_neg (by omega)]
  refine ⟨rfl, rfl, by decide⟩

/-- C3 amended: whenever `forward_gc + reverse_gc > 0` the returned
`gc_skew` is `(forward_gc − reverse_gc) / (forward_gc + reverse_gc)` over
the alternating-parity partition of the first 100000 reads, and the skew
classification runs; when the denominator is 0 no exception escapes and
`gc_skew` is reported as 0, but the classification is skipped (the internal
`UnboundLocalError` is caught), leaving `strandedness = 'unknown'` and
`confidence = 'low'`. -/
theorem c3_gc_skew_guard (rs : List (List Char)) :
    (0 < forward_gc rs + reverse_gc rs →
       (infer_strandedness_from_fastq rs).gc_skew
         = ((forward_gc rs : ℚ) - (reverse_gc rs : ℚ))
           / ((forward_gc rs : ℚ) + (reverse_gc rs : ℚ)))
    ∧ (forward_gc rs + reverse_gc rs = 0 →
       (infer_strandedness_from_fastq rs).gc_skew = 0
       ∧ (infer_strandedness_from_fastq rs).strandedness = "unknown"
       ∧ (infer_strandedness_from_fastq rs).confidence = "low") := by
  constructor
  · intro h
    unfold infer_strandedness_from_fastq
    rw [if_pos h]
    split_ifs <;> rfl
  · intro h0
    unfold infer_strandedness_from_fastq
    rw [if_neg (by omega)]
    exact ⟨rfl, rfl, rfl⟩

theorem c3_gc_skew_guard_witness :
    (infer_strandedness_from_fastq at_only_reads).gc_skew = 0
    ∧ (infer_strandedness_from_fastq at_only_reads).confidence = "low" := by
  have h := (c3_gc_skew_guard at_only_reads).2 (by decide)
  exact ⟨h.1, h.2.2⟩

/-- C8: whenever the gc-skew denominator is positive (so the classification
runs), a skew magnitude above 0.1 yields `stranded` with confidence `high`
above 0.2 and `medium` otherwise, and a magnitude at most 0.1 yields
`unstranded` with confidence `high` below 0.05 and `medium` otherwise. -/
theorem c8_strandedness_classification (rs : List (List Char))
    (h : 0 < forward_gc rs + reverse_gc rs) :
    ((1/10 : ℚ) < |(infer_strandedness_from_fastq rs).gc_skew| →
       (infer_strandedness_from_fastq rs).strandedness = "stranded"
       ∧ (infer_strandedness_from_fastq rs).confidence
           = if (1/5 : ℚ) < |(infer_strandedness_from_fastq rs).gc_skew|
             then "high" else "medium")
    ∧ (|(infer_strandedness_from_fastq rs).gc_skew| ≤ (1/10 : ℚ) →
       (infer_strandedness_from_fastq rs).strandedness = "unstranded"
       ∧ (infer_strandedness_from_fastq rs).confidence
           = if |(infer_strandedness_from_fastq rs).gc_skew| < (1/20 : ℚ)
             then "high" else "medium") := by
  have hg : (infer_strandedness_from_fastq rs).gc_skew = gc_skew_val rs := by
    unfold infer_strandedness_from_fastq
    rw [if_pos h]
    split_ifs <;> rfl
  rw [hg]
  unfold infer_strandedness_from_fastq
  rw [if_pos h]
  constructor
  · intro hmag
    rw [if_pos hmag]
    exact ⟨rfl, rfl⟩
  · intro hmag
    rw [if_neg (not_lt.mpr hmag)]
    exact ⟨rfl, rfl⟩

theorem c8_strandedness_classification_witness :
    (infer_strandedness_from_fastq skew_reads).strandedness = "stranded" := by
  have hf : forward_gc skew_reads = 0 := by decide
  have hr : reverse_gc skew_reads = 2 := by decide
  have hg : (infer_strandedness_from_fastq skew_reads).gc_skew = -1 := by
    have hgv : gc_skew_val skew_reads = -1 := by
      unfold gc_skew_val
      rw [hf, hr]
      norm_num
    unfold infer_strandedness_from_fastq
    rw [if_pos (by omega)]
    split_ifs <;> exact hgv
  exact ((c8_strandedness_classification skew_reads (by omega)).1
    (by rw [hg]; norm_num)).1

/-- C7: the per-file exception boundary of `calculate_sequence_complexity`
always yields one record: a read failure yields the initial record with all
metrics at their zero defaults and `quality_assessment = 'unknown'`, and an
empty file (0 reads) yields the same zeroed record (including zero entropy)
with no exception. -/
theorem c7_error_absorption :
    (∀ e : String,
       calculate_sequence_complexity_checked (Except.error e) = initComplexityRecord)
    ∧ calculate_sequence_complexity_checked (Except.ok []) = initComplexityRecord
    ∧ initComplexityRecord.total_reads = 0
    ∧ initComplexityRecord.unique_sequences = 0
    ∧ initComplexityRecord.duplicate_reads = 0
    ∧ initComplexityRecord.duplication_rate = 0
    ∧ initComplexityRecord.complexity_score = 0
    ∧ initComplexityRecord.gc_content = 0
    ∧ initComplexityRecord.quality_assessment = "unknown"
    ∧ shannon_entropy (useqs []) = 0 := by
  refine ⟨fun e => rfl, ?_, rfl, rfl, rfl, rfl, rfl, rfl, rfl, ?_⟩
  · rfl
  · unfold shannon_entropy useqs
    simp

/-- C10: the FASTQ format validator checks only the `@` and `+` line
prefixes: whenever every line at position ≡ 1 (mod 4) starts with `@` and
every line at position ≡ 3 (mod 4) starts with `+`, the result is valid
with an empty error list - a quality/sequence length mismatch is never
recorded as an error. -/
theorem c10_format_prefix_only (lines : List (List Char))
    (hh : ∀ p ∈ lines.enum, (p.1 + 1) % 4 = 1 → startsWithChar '@' p.2 = true)
    (hs : ∀ p ∈ lines.enum, (p.1 + 1) % 4 = 3 → startsWithChar '+' p.2 = true) :
    (validate_fastq_format lines).valid = true
    ∧ (validate_fastq_format lines).errors = [] := by
  have he : fastqFormatErrors lines = [] := by
    unfold fastqFormatErrors
    rw [List.filterMap_eq_nil_iff]
    intro p hp
    by_cases h1 : (p.1 + 1) % 4 = 1
    · rw [if_pos h1, if_pos (hh p hp h1)]
    · rw [if_neg h1]
      by_cases h3 : (p.1 + 1) % 4 = 3
      · rw [if_pos h3, if_pos (hs p hp h3)]
      · rw [if_neg h3]
  constructor
  · show (fastqFormatErrors lines).isEmpty = true
    rw [he]
    rfl
  · exact he

theorem c10_format_prefix_only_witness :
    (validate_fastq_format mismatched_lines).valid = true
    ∧ (validate_fastq_format mismatched_lines).errors = [] :=
  c10_format_prefix_only mismatched_lines (by decide) (by decide)

theorem dedup_toFinset_eq (l : List (List Char)) : l.dedup.toFinset = l.toFinset := by
  ext a
  simp [List.mem_toFinset, List.mem_dedup]

theorem count_decEq_eq (a : List Char) (l : List (List Char)) :
    @List.count (List Char) instBEqOfDecidableEq a l = l.count a := by
  induction l with
  | nil => rfl
  | cons b t ih =>
    by_cases h : b = a
    · subst h
      simp [List.count_cons, ih]
    · simp [List.count_cons, ih, h]

theorem sum_count_toFinset (l : List (List Char)) :
    (∑ s ∈ l.toFinset, l.count s) = l.length := by
  have hm := List.sum_toFinset_count_eq_length l
  calc (∑ s ∈ l.toFinset, l.count s)
      = ∑ s ∈ l.toFinset, @List.count (List Char) instBEqOfDecidableEq s l :=
        Finset.sum_congr rfl (fun s _ => (count_decEq_eq s l).symm)
    _ = l.length := hm

theorem shannon_entropy_spec_eq (l : List (List Char)) :
    shannon_entropy l = entropy_spec l := by
  by_cases h : 0 < l.length
  · have hlR : (0 : ℝ) < (l.length : ℝ) := by exact_mod_cast h
    unfold shannon_entropy entropy_spec
    rw [if_pos h]
    congr 1
    rw [← dedup_toFinset_eq l, List.sum_toFinset _ (List.nodup_dedup l)]
    refine congrArg List.sum (List.map_congr_left ?_)
    intro s hs
    have hc : 0 < l.count s := List.count_pos_iff.2 (List.mem_dedup.1 hs)
    have hp : 0 < (l.count s : ℝ) / (l.length : ℝ) :=
      div_pos (by exact_mod_cast hc) hlR
    rw [if_pos hp]
  · have h0 : l = [] := by
      rw [← List.length_eq_zero]
      omega
    subst h0
    unfold shannon_entropy entropy_spec
    simp

theorem shannon_entropy_zero_of_le_one (l : List (List Char))
    (h : l.dedup.length ≤ 1) : shannon_entropy l = 0 := by
  rcases Nat.le_one_iff_eq_zero_or_eq_one.1 h with h0 | h1
  · have : l = [] := (List.dedup_eq_nil l).1 (List.length_eq_zero.1 h0)
    subst this
    unfold shannon_entropy
    simp
  · obtain ⟨a, ha⟩ := List.length_eq_one.1 h1
    have hne : l ≠ [] := by
      intro h0
      subst h0
      rw [List.dedup_nil] at ha
      exact absurd ha (by simp)
    have hl : 0 < l.length := List.length_pos.2 hne
    have hlR : ((l.length : ℝ)) ≠ 0 := by
      exact_mod_cast hl.ne'
    have hcount : l.count a = l.length := by
      rw [List.count_eq_length]
      intro b hb
      have : b ∈ l.dedup := List.mem_dedup.2 hb
      rw [ha] at this
      simp at this
      exact this.symm
    unfold shannon_entropy
    rw [if_pos hl, ha]
    simp only [List.map_cons, List.map_nil, List.sum_cons, List.sum_nil, add_zero]
    rw [hcount, div_self hlR]
    simp [Real.logb_one]

theorem shannon_entropy_pos (l : List (List Char))
    (h : 2 ≤ l.dedup.length) : 0 < shannon_entropy l := by
  have hl : 0 < l.length := by
    have := (List.dedup_sublist l).length_le
    omega
  have hlR : (0 : ℝ) < (l.length : ℝ) := by exact_mod_cast hl
  rw [shannon_entropy_spec_eq]
  unfold entropy_spec
  rw [neg_pos]
  have hcard : 1 < l.toFinset.card := by
    rw [List.card_toFinset]
    omega
  obtain ⟨a, ha, b, hb, hab⟩ := Finset.one_lt_card.1 hcard
  have hsum :
      ∑ s ∈ l.toFinset,
          ((l.count s : ℝ) / (l.length : ℝ))
            * Real.logb 2 ((l.count s : ℝ) / (l.length : ℝ))
        < ∑ _s ∈ l.toFinset, (0 : ℝ) := by
    apply Finset.sum_lt_sum
    · intro s hs
      have hc : 0 < l.count s := List.count_pos_iff.2 (List.mem_toFinset.1 hs)
      have hp0 : 0 < (l.count s : ℝ) / (l.length : ℝ) :=
        div_pos (by exact_mod_cast hc) hlR
      have hp1 : (l.count s : ℝ) / (l.length : ℝ) ≤ 1 := by
        rw [div_le_one hlR]
        exact_mod_cast List.count_le_length s l
      have hlog := Real.logb_nonpos (by norm_num : (1 : ℝ) < 2) hp0.le hp1
      exact mul_nonpos_iff.2 (Or.inl ⟨hp0.le, hlog⟩)
    · refine ⟨a, ha, ?_⟩
      have hca : l.count a < l.length := by
        rcases lt_or_eq_of_le (List.count_le_length a l) with hlt | heq
        · exact hlt
        · exact absurd (List.count_eq_length.1 heq b (List.mem_toFinset.1 hb)) hab
      have hp0 : 0 < (l.count a : ℝ) / (l.length : ℝ) :=
        div_pos (by exact_mod_cast List.count_pos_iff.2 (List.mem_toFinset.1 ha)) hlR
      have hp1 : (l.count a : ℝ) / (l.length : ℝ) < 1 := by
        rw [div_lt_one hlR]
        exact_mod_cast hca
      exact mul_neg_of_pos_of_neg hp0 (Real.logb_neg (by norm_num) hp0 hp1)
  rw [Finset.sum_const, smul_zero] at hsum
  exact hsum

theorem shannon_entropy_uniform (l : List (List Char))
    (h : ∀ s ∈ l.toFinset, ∀ t ∈ l.toFinset, l.count s = l.count t) :
    shannon_entropy l = Real.logb 2 (l.dedup.length : ℝ) := by
  rcases eq_or_ne l [] with rfl | hne
  · unfold shannon_entropy
    simp [Real.logb_zero]
  · have hl : 0 < l.length := List.length_pos.2 hne
    have hu0 : 0 < l.dedup.length := by
      rcases Nat.eq_zero_or_pos l.dedup.length with h0 | hpos

      · exact absurd ((List.dedup_eq_nil l).1 (List.length_eq_zero.1 h0)) hne
      · exact hpos
    have huR : ((l.dedup.length : ℝ)) ≠ 0 := by exact_mod_cast hu0.ne'
    obtain ⟨a0, ha0⟩ := List.exists_mem_of_ne_nil l hne
    have ha0f : a0 ∈ l.toFinset := List.mem_toFinset.2 ha0
    have hc0 : 0 < l.count a0 := List.count_pos_iff.2 ha0
    have hc0R : ((l.count a0 : ℝ)) ≠ 0 := by exact_mod_cast hc0.ne'
    have hconst : ∀ s ∈ l.toFinset, l.count s = l.count a0 :=
      fun s hs => h s hs a0 ha0f
    have htot : l.dedup.length * l.count a0 = l.length := by
      have h2 : (∑ s ∈ l.toFinset, l.count s) = ∑ _s ∈ l.toFinset, l.count a0 :=
        Finset.sum_congr rfl hconst
      rw [Finset.sum_const, List.card_toFinset, smul_eq_mul] at h2
      rw [← sum_count_toFinset l, h2]
    rw [shannon_entropy_spec_eq]
    unfold entropy_spec
    have hp : ∀ s ∈ l.toFinset,
        (l.count s : ℝ) / (l.length : ℝ) = ((l.dedup.length : ℝ))⁻¹ := by
      intro s hs
      rw [hconst s hs, ← htot]
      push_cast
      rw [mul_comm, ← div_div, div_self hc0R, one_div]
    rw [Finset.sum_congr rfl (fun s hs => by rw [hp s hs]),
      Finset.sum_const, List.card_toFinset, nsmul_eq_mul, Real.logb_inv,
      mul_neg, mul_neg, neg_neg, ← mul_assoc, mul_inv_cancel₀ huR, one_mul]

/-- C5: the entropy accumulated by `calculate_sequence_complexity` equals
`−Σ p·log2(p)` over the distinct sequences with `p = count/total_reads`; it
is 0 exactly when at most one distinct sequence was observed, and it equals
`log2(unique_sequences)` whenever all distinct sequences occur equally
often. -/
theorem c5_shannon_entropy (recs : List FastqRecord) :
    shannon_entropy (useqs recs) = entropy_spec (useqs recs)
    ∧ (shannon_entropy (useqs recs) = 0
        ↔ (calculate_sequence_complexity recs).unique_sequences ≤ 1)
    ∧ ((∀ s ∈ (useqs recs).toFinset, ∀ t ∈ (useqs recs).toFinset,
          (useqs recs).count s = (useqs recs).count t) →
        shannon_entropy (useqs recs)
          = Real.logb 2 ((calculate_sequence_complexity recs).unique_sequences : ℝ)) := by
  have hfield : (calculate_sequence_complexity recs).unique_sequences
      = (useqs recs).dedup.length := rfl
  refine ⟨shannon_entropy_spec_eq _, ?_, ?_⟩
  · rw [hfield]
    constructor
    · intro h0
      by_contra hgt
      have h2 : 2 ≤ (useqs recs).dedup.length := by omega
      exact absurd h0 (ne_of_gt (shannon_entropy_pos _ h2))
    · intro hle
      exact shannon_entropy_zero_of_le_one _ hle
  · intro huniform
    rw [hfield]
    exact shannon_entropy_uniform _ huniform

theorem c5_shannon_entropy_witness :
    shannon_entropy (useqs tiny_reads) = 0
    ∧ shannon_entropy (useqs tiny_reads)
        = Real.logb 2 ((calculate_sequence_complexity tiny_reads).unique_sequences : ℝ) :=
  ⟨(c5_shannon_entropy tiny_reads).2.1.mpr (by decide),
   (c5_shannon_entropy tiny_reads).2.2 (by decide)⟩

end Oncomine
